import Mathlib

/-!
Shallow embedding of the template-resolution engine of
canonicalwebteam.django-views (src/canonicalwebteam/django_views/__init__.py).

External collaborators (the Django template loader, the filesystem seen by
glob, the frontmatter parser and the mistune Markdown converter) are passed
in as explicit parameters:

- `ex : String → Bool` models `_template_exists` (the Django loader
  existence check);
- `fs : List String` models the set of on-disk entries (files and
  directories) visible to `glob.glob`, each as a full path string;
- `tdirs : List String` models `loader.engines.templates["django"]["DIRS"]`;
- `contents : String → Option String` models
  `loader.get_template(p).template.render(Context())` — `none` means the
  loader raises `TemplateDoesNotExist`;
- `fm : String → FMDoc` models `frontmatter.loads`;
- `md2html : String → String` models `TemplateFinder.parse_markdown`
  applied to a text.
-/

namespace DjangoViews

/-- Is the first character list a leading run of the second? Structural
replacement for the core string facilities, so that closed instances
evaluate by kernel reduction. -/
def leadList : List Char → List Char → Bool
  | [], _ => true
  | _, [] => false
  | a :: as, b :: bs => a == b && leadList as bs

/-- Python `s.startswith(p)`. -/
def strLead (p s : String) : Bool := leadList p.toList s.toList

/-- Python `s.endswith(p)`. -/
def strTrail (p s : String) : Bool := leadList p.toList.reverse s.toList.reverse

/-- Drop the first `n` characters of a string. -/
def strDropN (s : String) (n : Nat) : String := String.mk (s.toList.drop n)

/-- Drop the last `n` characters of a string. -/
def strDropEndN (s : String) (n : Nat) : String :=
  String.mk ((s.toList.reverse.drop n).reverse)

/-- Python `s.lower()` (ASCII, character-wise, as in the paths at hand). -/
def strLower (s : String) : String := String.mk (s.toList.map Char.toLower)

/-- Python `os.path.join(a, b)` for POSIX paths (two-argument form). -/
def joinPath (a b : String) : String :=
  if strLead "/" b then b
  else if a == "" || strTrail "/" a then a ++ b
  else a ++ "/" ++ b

/-- Python `s.lstrip("/")`: drop every leading slash. -/
def dropSlashes (s : String) : String :=
  String.mk (s.toList.dropWhile (fun c => c == '/'))

/-- Length of the prefix of `cs` up to and including the last slash
(0 when `cs` has no slash). Helper for `dirname`. -/
def lastSlashLen : List Char → Nat
  | [] => 0
  | c :: rest =>
    let r := lastSlashLen rest
    if r > 0 then r + 1 else if c == '/' then 1 else 0

/-- Python `os.path.dirname` for POSIX paths: the prefix up to the last
slash, with trailing slashes stripped unless the prefix is all slashes. -/
def dirname (p : String) : String :=
  let cs := p.toList
  let head := cs.take (lastSlashLen cs)
  if head.isEmpty then ""
  else if head.all (fun c => c == '/') then String.mk head
  else String.mk ((head.reverse.dropWhile (fun c => c == '/')).reverse)

/-- Split a character list on a separator character (like `str.split`). -/
def splitOnChar (sep : Char) : List Char → List (List Char)
  | [] => [[]]
  | c :: rest =>
    let r := splitOnChar sep rest
    if c == sep then [] :: r
    else
      match r with
      | [] => [[c]]
      | h :: t => (c :: h) :: t

/-- Apply a `..` segment to a reversed accumulator of segments: cancel the
previous real segment, or keep the `..` when there is nothing to cancel. -/
def popSeg : List String → List String
  | [] => [".."]
  | a :: as => if a == ".." then ".." :: a :: as else as

/-- Normalize path segments: drop empty and `.` segments, let `..` cancel
the previous real segment (surplus `..` segments are kept). Helper for
`relpath`. The first argument is the reversed accumulator. -/
def normSegs : List String → List String → List String
  | acc, [] => acc.reverse
  | acc, s :: rest =>
    if s == "" || s == "." then normSegs acc rest
    else if s == ".." then normSegs (popSeg acc) rest
    else normSegs (s :: acc) rest

/-- Join path segments with slashes. -/
def joinSegs : List String → String
  | [] => ""
  | [s] => s
  | s :: rest => s ++ "/" ++ joinSegs rest

/-- Python `os.path.relpath(p)` for a relative POSIX path `p`, under the
standing assumption that the current working directory is deeper than any
surplus leading `..` (true for every path the engine builds): this is plain
path normalization. -/
def relpath (p : String) : String :=
  let segs := (splitOnChar '/' p.toList).map (fun cs => String.mk cs)
  let n := normSegs [] segs
  if n.isEmpty then "." else joinSegs n

/-- Python `re.sub(r"^" + template_dir, "", match)`: strip the template
directory from the front of a glob match. -/
def stripDir (d m : String) : String :=
  if strLead d m then strDropN m d.toList.length else m

/-- Python `re.sub(r"\.(html|md)$", "", match)`: strip a trailing `.html`
or `.md` extension. -/
def stripTemplateExt (m : String) : String :=
  if strTrail ".html" m then strDropEndN m 5
  else if strTrail ".md" m then strDropEndN m 3
  else m

/-- The `either` helper inside `_insensitive_glob`: a pattern character
that is alphabetic matches either of its two cases (the glob bracket
`[xX]`), every other pattern character matches exactly. -/
def charEither (pc fc : Char) : Bool :=
  if pc.isAlpha then fc == pc.toLower || fc == pc.toUpper else fc == pc

/-- Character-wise case-insensitive match of a whole pattern (no glob
wildcards appear in request paths, so the bracket pattern built by
`_insensitive_glob` matches exactly the strings of the same length whose
characters satisfy `charEither`). -/
def ciSeq : List Char → List Char → Bool
  | [], [] => true
  | p :: ps, f :: fc => charEither p f && ciSeq ps fc
  | _, _ => false

/-- Does the on-disk entry `entry` match `os.path.join(baseDir, search)`
where `search` is `pattern` with every alphabetic character replaced by its
two-case bracket?  The `baseDir` part is matched exactly, the `pattern`
part case-insensitively. -/
def globEntryMatch (baseDir pattern entry : String) : Bool :=
  if strLead "/" pattern then ciSeq pattern.toList entry.toList
  else if baseDir == "" then ciSeq pattern.toList entry.toList
  else if strTrail "/" baseDir then
    strLead baseDir entry
      && ciSeq pattern.toList (strDropN entry baseDir.toList.length).toList
  else
    strLead (baseDir ++ "/") entry
      && ciSeq pattern.toList (strDropN entry (baseDir.toList.length + 1)).toList

/-- Embedding of `_insensitive_glob(pattern, base_dir)`: the on-disk
entries matching the case-desensitized pattern under `base_dir`. -/
def _insensitive_glob (fs : List String) (pattern baseDir : String) : List String :=
  fs.filter (fun f => globEntryMatch baseDir pattern f)

/-- Embedding of `_get_template(url_path)`: try the four candidates in
order and return the first whose template exists. -/
def _get_template (ex : String → Bool) (url_path : String) : Option String :=
  if ex (url_path ++ ".html") then some (url_path ++ ".html")
  else if ex (joinPath url_path "index.html") then some (joinPath url_path "index.html")
  else if ex (url_path ++ ".md") then some (url_path ++ ".md")
  else if ex (joinPath url_path "index.md") then some (joinPath url_path "index.md")
  else none

/-- The four candidate paths `_get_template` probes, in source order. -/
def candidates (p : String) : List String :=
  [p ++ ".html", joinPath p "index.html", p ++ ".md", joinPath p "index.md"]

/-- The sequence of existence probes an if/elif chain performs on a
candidate list: each candidate is probed in turn and the chain stops at
the first success. -/
def probeTrace (ex : String → Bool) : List String → List String
  | [] => []
  | c :: cs => if ex c then [c] else c :: probeTrace ex cs

/-- Python truthiness of an optional string (`_get_template` returns
either `None` or a path string). -/
def truthyOptStr : Option String → Bool
  | some s => !(s == "")
  | none => false

/-- The cleaned `matches` list built inside `_find_template_url`: for
every template directory, the case-insensitive glob results for the bare
path and for the path with `.html` and `.md` appended, each with the
directory stripped from the front and a template extension stripped from
the end. -/
def cleanedGlobMatches (fs tdirs : List String) (path : String) : List String :=
  (tdirs.map (fun d =>
    ((_insensitive_glob fs path d ++ _insensitive_glob fs (path ++ ".html") d)
        ++ _insensitive_glob fs (path ++ ".md") d).map
      (fun m => stripTemplateExt (stripDir d m)))).flatten

/-- Embedding of `_find_template_url(path)`: return the single cleaned
case-insensitive match when it agrees with the requested path up to case
and its case-exact path re-resolves through `_get_template`. -/
def _find_template_url (fs tdirs : List String) (ex : String → Bool) (path : String) :
    Option String :=
  match cleanedGlobMatches fs tdirs path with
  | [m] =>
    if strLower m == "/" ++ strLower path
        && truthyOptStr (_get_template ex (dropSlashes m)) then
      some m
    else none
  | _ => none

/-- A YAML frontmatter value as far as `wrapper_template` is concerned:
a string, a boolean, or null. -/
inductive YVal where
  | str : String → YVal
  | bool : Bool → YVal
  | null : YVal
deriving DecidableEq

/-- Python truthiness of a frontmatter value. -/
def YVal.truthy : YVal → Bool
  | .str s => !(s == "")
  | .bool b => b
  | .null => false

/-- A render context: an insertion-ordered string-keyed mapping, modelling
a Python dict of context values. -/
abbrev Ctx := List (String × String)

/-- Python `d.get(k)`: the binding of `k` in `d`, if any. -/
def dget : Ctx → String → Option String
  | [], _ => none
  | (k', v') :: rest, k => if k' == k then some v' else dget rest k

/-- Python `d[k] = v`: replace the binding of `k` in place, or append a
new binding at the end. -/
def dset : Ctx → String → String → Ctx
  | [], k, v => [(k, v)]
  | (k', v') :: rest, k, v =>
    if k' == k then (k, v) :: rest else (k', v') :: dset rest k v

/-- Python `base.update(overlay)`: write every binding of `overlay` into
`base`, in order; overlay bindings win on key collision. -/
def dupdate (base overlay : Ctx) : Ctx :=
  overlay.foldl (fun acc kv => dset acc kv.1 kv.2) base

/-- The result of `frontmatter.loads`: the three recognized metadata keys
and the body. `wrapper_template = none` models an absent key; `context`
and `markdown_includes` default to empty mappings as in
`metadata.get(..., {})`. -/
structure FMDoc where
  wrapper_template : Option YVal
  context : Ctx
  markdown_includes : List (String × String)
  content : String

/-- An error escaping the engine: `django.template.TemplateDoesNotExist`,
raised by the template loader both when `_parse_markdown_file` loads the
document or one of its includes and when the templating collaborator later
renders a missing template (the source defines no error of its own for a
missing include), and Python `AttributeError` for a truthy non-string
`wrapper_template`. -/
inductive LoaderErr where
  | templateDoesNotExist : String → LoaderErr
  | attributeError : LoaderErr
deriving DecidableEq

/-- The value `_parse_markdown_file` returns when it does not raise:
`None` (`invalid`) for a document without a truthy `wrapper_template`, or
the dict with the resolved wrapper template path and the built context. -/
inductive ParseResult where
  | invalid : ParseResult
  | page : String → Ctx → ParseResult
deriving DecidableEq

/-- Embedding of `_relative_template_path(path, origin_filepath)`. -/
def _relative_template_path (path origin_filepath : String) : String :=
  if strLead "/" path then dropSlashes path
  else relpath (joinPath (dirname origin_filepath) path)

/-- The `markdown_includes` loop of `_parse_markdown_file`: resolve each
include reference against the document path, load and render it through
the template loader (raising `TemplateDoesNotExist` when the loader cannot
find it), convert the loaded text to HTML and store it under the declared
key. -/
def addIncludes (contents : String → Option String) (md2html : String → String)
    (filepath : String) : Ctx → List (String × String) → Except LoaderErr Ctx
  | ctx, [] => .ok ctx
  | ctx, (key, p) :: rest =>
    let include_path := _relative_template_path p filepath
    match contents include_path with
    | none => .error (.templateDoesNotExist include_path)
    | some inc => addIncludes contents md2html filepath (dset ctx key (md2html inc)) rest

/-- Embedding of `TemplateFinder._parse_markdown_file(filepath)`. -/
def _parse_markdown_file (contents : String → Option String) (fm : String → FMDoc)
    (md2html : String → String) (filepath : String) : Except LoaderErr ParseResult :=
  match contents filepath with
  | none => .error (.templateDoesNotExist filepath)
  | some file_contents =>
    let markdown := fm file_contents
    match markdown.wrapper_template with
    | none => .ok .invalid
    | some wt =>
      if wt.truthy then
        match wt with
        | .str w =>
          let template_filepath := _relative_template_path w filepath
          let ctx := dset markdown.context "html_content" (md2html markdown.content)
          match addIncludes contents md2html filepath ctx markdown.markdown_includes with
          | .error e => .error e
          | .ok c => .ok (.page template_filepath c)
        | _ => .error .attributeError
      else .ok .invalid

/-- The outcome of one request, as produced by
`TemplateFinder.render_to_response`: a rendered template with its final
context (HTTP 200), an `HttpResponseRedirect` (302), or `Http404`. -/
inductive Outcome where
  | render : String → Ctx → Outcome
  | redirect : String → Outcome
  | notFound : Outcome
deriving DecidableEq

deriving instance DecidableEq for Except

/-- Embedding of `TemplateFinder.render_to_response`: resolve the request
path and produce the outcome (errors raised by the loader escape as
`Except.error`). -/
def render_to_response (ex : String → Bool) (fs tdirs : List String)
    (contents : String → Option String) (fm : String → FMDoc)
    (md2html : String → String) (requestPath : String) (context : Ctx) :
    Except LoaderErr Outcome :=
  let path := dropSlashes requestPath
  match _get_template ex path with
  | none =>
    match _find_template_url fs tdirs ex path with
    | some url => .ok (.redirect url)
    | none => .ok .notFound
  | some matching_template =>
    if strTrail ".md" matching_template then
      match _parse_markdown_file contents fm md2html matching_template with
      | .error e => .error e
      | .ok .invalid => .ok .notFound
      | .ok (.page tpl mdctx) => .ok (.render tpl (dupdate context mdctx))
    else .ok (.render matching_template context)

/-- The block-lexer configuration of `WebteamBlockLexer`: the ordered
tuple of block rule names. -/
structure BlockLexerConfig where
  list_rules : List String

/-- The `WebteamBlockLexer` subclass: its `list_rules` tuple, in source
order. -/
def webteamBlockLexer : BlockLexerConfig :=
  ⟨["newline", "block_code", "fences", "lheading", "hrule", "table", "nptable",
    "block_quote", "list_block", "block_html", "text"]⟩

/-- The constructor arguments of the `mistune.Markdown` converter held in
`TemplateFinder.parse_markdown`. -/
structure MarkdownConfig where
  parse_block_html : Bool
  parse_inline_html : Bool
  block : BlockLexerConfig

/-- The configuration of `TemplateFinder.parse_markdown`:
`Markdown(parse_block_html=True, parse_inline_html=True,
block=WebteamBlockLexer())`. -/
def parse_markdown : MarkdownConfig :=
  ⟨true, true, webteamBlockLexer⟩

/-! ### Concrete oracle instances, used to instantiate the claim theorems -/

/-- Identity Markdown conversion oracle. -/
def mdId : String → String := fun s => s

/-- A frontmatter oracle giving every document empty metadata and its raw
text as body. -/
def fmDefault : String → FMDoc := fun s => ⟨none, [], [], s⟩

/-- Existence oracle for the C1 witness: both the `.html` and the `.md`
exact candidates exist. -/
def exW1 : String → Bool := fun s => s == "w1.html" || s == "w1.md"

def exW2 : String → Bool := fun s => s == "Foo.html"

def fsW2 : List String := ["/t/Foo.html"]

def tdirsW2 : List String := ["/t"]

/-- C3 scenario: the only on-disk entry is a Markdown file without
`wrapper_template`, requested with differing case. -/
def exC3 : String → Bool := fun s => s == "page.md"

def fsC3 : List String := ["/t/page.md"]

def tdirsC3 : List String := ["/t"]

def contentsC3 : String → Option String :=
  fun s => if s == "page.md" then some "bodytext" else none

def exW4 : String → Bool := fun s => s == "a.md"

def contentsW4 : String → Option String :=
  fun s => if s == "a.md" then some "hello" else none

def exW10 : String → Bool := fun s => s == "b.md"

def contentsW10 : String → Option String :=
  fun s => if s == "b.md" then some "hb" else none

/-- Frontmatter oracle for the C10 witness: `wrapper_template` present but
bound to the empty string. -/
def fmW10 : String → FMDoc := fun _ => ⟨some (.str ""), [], [], "hb"⟩

def exW5 : String → Bool := fun s => s == "md-templates/a-file.md"

def contentsW5 : String → Option String := fun s =>
  if s == "md-templates/a-file.md" then some "TOP"
  else if s == "md-templates/_nav.md" then some "NAVRAW"
  else none

/-- Frontmatter oracle for the C5 witness: a caller-colliding context key
`t`, one include, an absolute wrapper template. -/
def fmW5 : String → FMDoc := fun s =>
  if s == "TOP" then
    ⟨some (.str "/wrapper.html"), [("title", "X"), ("t", "f1")],
      [("nav", "_nav.md")], "a md file"⟩
  else ⟨none, [], [], s⟩

def mdW5 : String → String := fun s => "<p>" ++ s

def callerW5 : Ctx := [("t", "c1"), ("only", "c2")]

def mdctxW5 : Ctx :=
  [("title", "X"), ("t", "f1"), ("html_content", "<p>a md file"),
   ("nav", "<p>NAVRAW")]

def exW6 : String → Bool := fun s => s == "md/a.md"

def contentsW6 : String → Option String := fun s =>
  if s == "md/a.md" then some "T6"
  else if s == "inc.md" then some "I6"
  else none

/-- Frontmatter oracle for the C6 witness: a relative wrapper reference
climbing out of the document directory and an absolute include. -/
def fmW6 : String → FMDoc := fun s =>
  if s == "T6" then
    ⟨some (.str "../wrap.html"), [], [("abs", "/inc.md")], "B6"⟩
  else ⟨none, [], [], s⟩

def exW7 : String → Bool := fun s => s == "md7/a.md"

def contentsW7 : String → Option String := fun s =>
  if s == "md7/a.md" then some "T7"
  else if s == "md7/_nav.md" then some "NAVFULL"
  else none

/-- Frontmatter oracle for the C7 witness: the frontmatter body of the
included file differs from its raw text, so storing the conversion of the
raw text is observable. -/
def fmW7 : String → FMDoc := fun s =>
  if s == "T7" then ⟨some (.str "/w.html"), [], [("nav", "_nav.md")], "body7"⟩
  else ⟨some (.str "/x.html"), [], [], "STRIPPED"⟩

def exW8 : String → Bool := fun s => s == "md8/a.md"

def contentsW8 : String → Option String :=
  fun s => if s == "md8/a.md" then some "T8" else none

/-- Frontmatter oracle for the C8 scenario: a valid wrapper but an include
pointing at a file the loader cannot find. -/
def fmW8 : String → FMDoc := fun s =>
  if s == "T8" then ⟨some (.str "/w.html"), [], [("nav", "_nav.md")], "b8"⟩
  else ⟨none, [], [], s⟩

/-! ### General lemmas -/

theorem probeTrace_closed (ex : String → Bool) (l : List String) :
    probeTrace ex l
      = l.takeWhile (fun c => !(ex c)) ++ (l.find? (fun c => ex c)).toList := by
  induction l with
  | nil => simp [probeTrace]
  | cons c cs ih =>
    cases h : ex c <;>
      simp [probeTrace, h, ih, List.find?_cons, List.takeWhile_cons]

theorem string_append_ne_empty (a b : String) (hb : b ≠ "") : a ++ b ≠ "" := by
  intro h
  apply hb
  apply String.ext
  have hd := congrArg String.data h
  rw [String.data_append] at hd
  have hb2 : b.data = [] := (List.append_eq_nil.mp hd).2
  simpa using hb2

theorem joinPath_ne_empty (a b : String) (hb : b ≠ "") : joinPath a b ≠ "" := by
  unfold joinPath
  split
  · exact hb
  · split
    · exact string_append_ne_empty _ _ hb
    · exact string_append_ne_empty _ _ hb

theorem get_template_ne_empty (ex : String → Bool) (q s : String)
    (h : _get_template ex q = some s) : s ≠ "" := by
  simp only [_get_template] at h
  split at h
  · cases h; exact string_append_ne_empty _ _ (by decide)
  · split at h
    · cases h; exact joinPath_ne_empty _ _ (by decide)
    · split at h
      · cases h; exact string_append_ne_empty _ _ (by decide)
      · split at h
        · cases h; exact joinPath_ne_empty _ _ (by decide)
        · cases h

theorem truthyOptStr_eq_isSome (o : Option String) (h : ∀ s, o = some s → s ≠ "") :
    truthyOptStr o = o.isSome := by
  cases o with
  | none => rfl
  | some s => simpa [truthyOptStr] using h s rfl

theorem get_template_truthy (ex : String → Bool) (q : String) :
    truthyOptStr (_get_template ex q) = (_get_template ex q).isSome :=
  truthyOptStr_eq_isSome _ (fun _ h => get_template_ne_empty ex q _ h)

theorem mem_cleanedGlobMatches (fs tdirs : List String) (path m : String)
    (h : m ∈ cleanedGlobMatches fs tdirs path) :
    ∃ d, d ∈ tdirs ∧ ∃ f, f ∈ fs ∧ m = stripTemplateExt (stripDir d f) := by
  simp only [cleanedGlobMatches, List.mem_flatten, List.mem_map] at h
  rcases h with ⟨l, ⟨d, hd, rfl⟩, hm⟩
  rcases List.mem_map.mp hm with ⟨f, hf, rfl⟩
  refine ⟨d, hd, f, ?_, rfl⟩
  rcases List.mem_append.mp hf with h' | h'
  · rcases List.mem_append.mp h' with h'' | h'' <;>
      exact (List.mem_filter.mp h'').1
  · exact (List.mem_filter.mp h').1

/-! ### Dictionary lemmas -/

theorem dget_dset_self (c : Ctx) (k v : String) : dget (dset c k v) k = some v := by
  induction c with
  | nil => simp [dset, dget]
  | cons kv rest ih =>
    obtain ⟨a, b⟩ := kv
    by_cases h : a = k
    · subst h; simp [dset, dget]
    · have hb : (a == k) = false := beq_eq_false_iff_ne.mpr h
      simp [dset, dget, hb, ih]

theorem dget_dset_other (c : Ctx) (k k' v : String) (h : k' ≠ k) :
    dget (dset c k' v) k = dget c k := by
  have hb : (k' == k) = false := beq_eq_false_iff_ne.mpr h
  induction c with
  | nil => simp [dset, dget, hb]
  | cons kv rest ih =>
    obtain ⟨a, b⟩ := kv
    by_cases ha : a = k'
    · subst ha
      simp [dset, dget, hb]
    · have hab : (a == k') = false := beq_eq_false_iff_ne.mpr ha
      by_cases hak : a = k
      · subst hak; simp [dset, dget, hab]
      · have hakb : (a == k) = false := beq_eq_false_iff_ne.mpr hak
        simp [dset, dget, hab, hakb, ih]

theorem dget_none_iff (c : Ctx) (k : String) :
    dget c k = none ↔ k ∉ c.map Prod.fst := by
  induction c with
  | nil => simp [dget]
  | cons kv rest ih =>
    obtain ⟨a, b⟩ := kv
    by_cases h : a = k
    · subst h; simp [dget]
    · have hb : (a == k) = false := beq_eq_false_iff_ne.mpr h
      simp [dget, hb, ih, Ne.symm h]

theorem dget_isSome_iff (c : Ctx) (k : String) :
    (dget c k).isSome = true ↔ k ∈ c.map Prod.fst := by
  constructor
  · intro hs
    by_contra hk
    rw [(dget_none_iff c k).mpr hk] at hs
    simp at hs
  · intro hm
    cases ho : dget c k with
    | none => exact absurd hm ((dget_none_iff c k).mp ho)
    | some v => simp

theorem dget_dset_isSome (c : Ctx) (k k' v : String)
    (h : (dget c k).isSome = true ∨ k' = k) :
    (dget (dset c k' v) k).isSome = true := by
  by_cases he : k' = k
  · subst he; simp [dget_dset_self]
  · rcases h with h | h
    · rw [dget_dset_other c k k' v he]; exact h
    · exact absurd h he

theorem dset_map_fst (c : Ctx) (k v : String) :
    (dset c k v).map Prod.fst
      = if k ∈ c.map Prod.fst then c.map Prod.fst else c.map Prod.fst ++ [k] := by
  induction c with
  | nil => simp [dset]
  | cons kv rest ih =>
    obtain ⟨a, b⟩ := kv
    by_cases h : a = k
    · subst h; simp [dset]
    · have hb : (a == k) = false := beq_eq_false_iff_ne.mpr h
      by_cases hm : k ∈ rest.map Prod.fst <;>
        simp [dset, hb, ih, hm, Ne.symm h, List.cons_append]

theorem dset_nodup (c : Ctx) (k v : String) (h : (c.map Prod.fst).Nodup) :
    ((dset c k v).map Prod.fst).Nodup := by
  rw [dset_map_fst]
  split
  · exact h
  · next hk =>
    refine List.Nodup.append h (List.nodup_singleton k) ?_
    intro a ha hak
    rcases List.mem_singleton.mp hak with rfl
    exact hk ha

theorem dupdate_cons (b : Ctx) (k v : String) (ov : Ctx) :
    dupdate b ((k, v) :: ov) = dupdate (dset b k v) ov := rfl

theorem dget_dupdate_none (b ov : Ctx) (k : String) (h : dget ov k = none) :
    dget (dupdate b ov) k = dget b k := by
  induction ov generalizing b with
  | nil => rfl
  | cons kv rest ih =>
    obtain ⟨a, w⟩ := kv
    by_cases hak : a = k
    · subst hak; simp [dget] at h
    · have hb : (a == k) = false := beq_eq_false_iff_ne.mpr hak
      have h' : dget rest k = none := by simpa [dget, hb] using h
      rw [dupdate_cons, ih (dset b a w) h', dget_dset_other b k a w hak]

theorem dget_dupdate_some (b ov : Ctx) (k v : String)
    (hnd : (ov.map Prod.fst).Nodup) (h : dget ov k = some v) :
    dget (dupdate b ov) k = some v := by
  induction ov generalizing b with
  | nil => simp [dget] at h
  | cons kv rest ih =>
    obtain ⟨a, w⟩ := kv
    have hnd' : (rest.map Prod.fst).Nodup := (List.nodup_cons.mp (by simpa using hnd)).2
    by_cases hak : a = k
    · subst hak
      have hv : w = v := by simpa [dget] using h
      subst hv
      have hmem : a ∉ rest.map Prod.fst := (List.nodup_cons.mp (by simpa using hnd)).1
      have hrest : dget rest a = none := (dget_none_iff rest a).mpr hmem
      rw [dupdate_cons, dget_dupdate_none (dset b a w) rest a hrest, dget_dset_self]
    · have hb : (a == k) = false := beq_eq_false_iff_ne.mpr hak
      have h' : dget rest k = some v := by simpa [dget, hb] using h
      rw [dupdate_cons]
      exact ih (dset b a w) hnd' h'

/-! ### Lemmas about the include loop and the Markdown parse -/

theorem addIncludes_untouched (contents : String → Option String)
    (md2html : String → String) (fp : String) (incs : List (String × String))
    (ctx out : Ctx) (k : String)
    (h : addIncludes contents md2html fp ctx incs = .ok out)
    (hk : k ∉ incs.map Prod.fst) :
    dget out k = dget ctx k := by
  induction incs generalizing ctx with
  | nil =>
    injection h with h
    rw [h]
  | cons kp rest ih =>
    obtain ⟨key, p⟩ := kp
    simp only [addIncludes] at h
    cases hc : contents (_relative_template_path p fp) with
    | none => rw [hc] at h; cases h
    | some inc =>
      rw [hc] at h
      dsimp only at h
      have hk1 : k ∉ rest.map Prod.fst := fun hm => hk (by simp [hm])
      have hk2 : key ≠ k := fun he => hk (by simp [he])
      rw [ih (dset ctx key (md2html inc)) h hk1, dget_dset_other ctx k key _ hk2]

theorem addIncludes_isSome_mono (contents : String → Option String)
    (md2html : String → String) (fp : String) (incs : List (String × String))
    (ctx out : Ctx) (k : String)
    (h : addIncludes contents md2html fp ctx incs = .ok out)
    (hs : (dget ctx k).isSome = true) :
    (dget out k).isSome = true := by
  induction incs generalizing ctx with
  | nil =>
    injection h with h
    exact h ▸ hs
  | cons kp rest ih =>
    obtain ⟨key, p⟩ := kp
    simp only [addIncludes] at h
    cases hc : contents (_relative_template_path p fp) with
    | none => rw [hc] at h; cases h
    | some inc =>
      rw [hc] at h
      dsimp only at h
      exact ih (dset ctx key (md2html inc)) h
        (dget_dset_isSome ctx k key (md2html inc) (Or.inl hs))

theorem addIncludes_mem_isSome (contents : String → Option String)
    (md2html : String → String) (fp : String) (incs : List (String × String))
    (ctx out : Ctx) (k : String)
    (h : addIncludes contents md2html fp ctx incs = .ok out)
    (hk : k ∈ incs.map Prod.fst) :
    (dget out k).isSome = true := by
  induction incs generalizing ctx with
  | nil => simp at hk
  | cons kp rest ih =>
    obtain ⟨key, p⟩ := kp
    simp only [addIncludes] at h
    cases hc : contents (_relative_template_path p fp) with
    | none => rw [hc] at h; cases h
    | some inc =>
      rw [hc] at h
      dsimp only at h
      rw [List.map_cons] at hk
      rcases List.mem_cons.mp hk with he | hm
      · exact addIncludes_isSome_mono contents md2html fp rest _ out k h
          (dget_dset_isSome ctx k key (md2html inc) (Or.inr he.symm))
      · exact ih (dset ctx key (md2html inc)) h hm

theorem addIncludes_contents_isSome (contents : String → Option String)
    (md2html : String → String) (fp : String) (incs : List (String × String))
    (ctx out : Ctx)
    (h : addIncludes contents md2html fp ctx incs = .ok out) :
    ∀ kp, kp ∈ incs → (contents (_relative_template_path kp.2 fp)).isSome = true := by
  induction incs generalizing ctx with
  | nil => intro kp hm; simp at hm
  | cons kp0 rest ih =>
    obtain ⟨key, p⟩ := kp0
    simp only [addIncludes] at h
    cases hc : contents (_relative_template_path p fp) with
    | none => rw [hc] at h; cases h
    | some inc =>
      rw [hc] at h
      dsimp only at h
      intro kp hm
      rcases List.mem_cons.mp hm with he | hm'
      · subst he; simp [hc]
      · exact ih (dset ctx key (md2html inc)) h kp hm'

theorem addIncludes_value (contents : String → Option String)
    (md2html : String → String) (fp : String) (incs : List (String × String))
    (ctx out : Ctx) (k p : String)
    (hnd : (incs.map Prod.fst).Nodup)
    (h : addIncludes contents md2html fp ctx incs = .ok out)
    (hm : (k, p) ∈ incs) :
    ∃ raw, contents (_relative_template_path p fp) = some raw
      ∧ dget out k = some (md2html raw) := by
  induction incs generalizing ctx with
  | nil => simp at hm
  | cons kp0 rest ih =>
    obtain ⟨key, q⟩ := kp0
    have hnd' : (rest.map Prod.fst).Nodup := (List.nodup_cons.mp (by simpa using hnd)).2
    simp only [addIncludes] at h
    cases hc : contents (_relative_template_path q fp) with
    | none => rw [hc] at h; cases h
    | some inc =>
      rw [hc] at h
      dsimp only at h
      rcases List.mem_cons.mp hm with he | hm'
      · injection he with he1 he2
        subst he1
        subst he2
        refine ⟨inc, hc, ?_⟩
        have hkey : k ∉ rest.map Prod.fst :=
          (List.nodup_cons.mp (by simpa using hnd)).1
        rw [addIncludes_untouched contents md2html fp rest _ out k h hkey,
          dget_dset_self]
      · exact ih (dset ctx key (md2html inc)) hnd' h hm'

theorem addIncludes_nodup (contents : String → Option String)
    (md2html : String → String) (fp : String) (incs : List (String × String))
    (ctx out : Ctx)
    (hnd : (ctx.map Prod.fst).Nodup)
    (h : addIncludes contents md2html fp ctx incs = .ok out) :
    (out.map Prod.fst).Nodup := by
  induction incs generalizing ctx with
  | nil =>
    injection h with h
    rw [h] at hnd; exact hnd
  | cons kp rest ih =>
    obtain ⟨key, p⟩ := kp
    simp only [addIncludes] at h
    cases hc : contents (_relative_template_path p fp) with
    | none => rw [hc] at h; cases h
    | some inc =>
      rw [hc] at h
      dsimp only at h
      exact ih (dset ctx key (md2html inc)) (dset_nodup ctx key (md2html inc) hnd) h

theorem addIncludes_missing (contents : String → Option String)
    (md2html : String → String) (fp : String) (ctx : Ctx)
    (pre post : List (String × String)) (k p : String)
    (hpre : ∀ kp, kp ∈ pre → (contents (_relative_template_path kp.2 fp)).isSome = true)
    (hmiss : contents (_relative_template_path p fp) = none) :
    addIncludes contents md2html fp ctx (pre ++ (k, p) :: post)
      = .error (.templateDoesNotExist (_relative_template_path p fp)) := by
  induction pre generalizing ctx with
  | nil => simp [addIncludes, hmiss]
  | cons kp0 rest ih =>
    obtain ⟨key, q⟩ := kp0
    have hq := hpre (key, q) (by simp)
    rcases Option.isSome_iff_exists.mp hq with ⟨inc, hinc⟩
    rw [List.cons_append]
    simp only [addIncludes, hinc]
    exact ih (dset ctx key (md2html inc)) (fun kp hm => hpre kp (by simp [hm]))

theorem parse_markdown_file_page_fwd (contents : String → Option String)
    (fm : String → FMDoc) (md2html : String → String) (filepath raw w : String)
    (h3 : contents filepath = some raw)
    (h4 : (fm raw).wrapper_template = some (.str w))
    (h5 : w ≠ "") :
    _parse_markdown_file contents fm md2html filepath
      = match addIncludes contents md2html filepath
            (dset (fm raw).context "html_content" (md2html (fm raw).content))
            (fm raw).markdown_includes with
        | .error e => .error e
        | .ok c => .ok (.page (_relative_template_path w filepath) c) := by
  have hb : (w == "") = false := beq_eq_false_iff_ne.mpr h5
  unfold _parse_markdown_file
  rw [h3]
  dsimp only
  rw [h4]
  dsimp only
  simp [YVal.truthy, hb]

theorem parse_markdown_file_page_inv (contents : String → Option String)
    (fm : String → FMDoc) (md2html : String → String) (filepath tpl : String)
    (mdctx : Ctx)
    (h : _parse_markdown_file contents fm md2html filepath = .ok (.page tpl mdctx)) :
    ∃ raw w, contents filepath = some raw
      ∧ (fm raw).wrapper_template = some (.str w)
      ∧ w ≠ ""
      ∧ tpl = _relative_template_path w filepath
      ∧ addIncludes contents md2html filepath
          (dset (fm raw).context "html_content" (md2html (fm raw).content))
          (fm raw).markdown_includes = .ok mdctx := by
  unfold _parse_markdown_file at h
  cases hc : contents filepath with
  | none => rw [hc] at h; cases h
  | some raw =>
    rw [hc] at h
    dsimp only at h
    cases hw : (fm raw).wrapper_template with
    | none => rw [hw] at h; dsimp only at h; simp at h
    | some wt =>
      rw [hw] at h
      dsimp only at h
      cases wt with
      | str w =>
        by_cases hwe : w = ""
        · subst hwe
          simp [YVal.truthy] at h
        · have hb : (w == "") = false := beq_eq_false_iff_ne.mpr hwe
          rw [show YVal.truthy (.str w) = true by simp [YVal.truthy, hb]] at h
          dsimp only at h
          cases ha : addIncludes contents md2html filepath
              (dset (fm raw).context "html_content" (md2html (fm raw).content))
              (fm raw).markdown_includes with
          | error e => rw [ha] at h; simp at h
          | ok c =>
            rw [ha] at h
            dsimp only at h
            have h' := Except.ok.inj h
            injection h' with ht hctx
            exact ⟨raw, w, rfl, hw, hwe, ht.symm, by rw [ha, hctx]⟩
      | bool b =>
        cases b with
        | true => simp [YVal.truthy] at h
        | false => simp [YVal.truthy] at h
      | null => simp [YVal.truthy] at h

/-! ### Claim theorems -/

/-- C1: for every request path `p`, `_get_template` tries the four
candidates `p ++ ".html"`, `p/index.html`, `p ++ ".md"`, `p/index.md` in
this fixed order and returns the first that exists (so when both
`p ++ ".html"` and `p ++ ".md"` exist the Html match wins), and the probe
sequence of its if/elif chain stops at the first successful candidate. -/
theorem get_template_candidate_order (ex : String → Bool) (p : String) :
    _get_template ex p = (candidates p).find? (fun c => ex c)
    ∧ (ex (p ++ ".html") = true → _get_template ex p = some (p ++ ".html"))
    ∧ probeTrace ex (candidates p)
        = (candidates p).takeWhile (fun c => !(ex c))
          ++ ((candidates p).find? (fun c => ex c)).toList := by
  refine ⟨?_, ?_, probeTrace_closed ex (candidates p)⟩
  · simp only [_get_template, candidates]
    cases h1 : ex (p ++ ".html") <;>
      cases h2 : ex (joinPath p "index.html") <;>
        cases h3 : ex (p ++ ".md") <;>
          cases h4 : ex (joinPath p "index.md") <;>
            simp [List.find?_cons, h1, h2, h3, h4]
  · intro h
    simp [_get_template, h]

/-- Witness for C1: with both `w1.html` and `w1.md` existing, the Html
candidate is returned. -/
theorem get_template_candidate_order_witness :
    exW1 ("w1" ++ ".html") = true ∧ exW1 ("w1" ++ ".md") = true
      ∧ _get_template exW1 "w1" = some ("w1" ++ ".html") :=
  ⟨by decide, by decide, (get_template_candidate_order exW1 "w1").2.1 (by decide)⟩

/-- C2: the case-insensitive fallback returns a redirect target exactly
when the cleaned glob match list is a single candidate whose lowercased
form equals the lowercased requested path (with a leading slash) and whose
case-exact path re-resolves through `_get_template`; the returned target
is a cleaned on-disk entry (canonical casing); in every other case the
result is `none` (leading to `Http404`). -/
theorem find_template_url_characterization (fs tdirs : List String)
    (ex : String → Bool) (path : String) :
    (∀ m, _find_template_url fs tdirs ex path = some m ↔
      (cleanedGlobMatches fs tdirs path = [m]
        ∧ strLower m = "/" ++ strLower path
        ∧ (_get_template ex (dropSlashes m)).isSome = true))
    ∧ (∀ m, _find_template_url fs tdirs ex path = some m →
        ∃ d, d ∈ tdirs ∧ ∃ f, f ∈ fs ∧ m = stripTemplateExt (stripDir d f)) := by
  have hchar : ∀ m, _find_template_url fs tdirs ex path = some m ↔
      (cleanedGlobMatches fs tdirs path = [m]
        ∧ strLower m = "/" ++ strLower path
        ∧ (_get_template ex (dropSlashes m)).isSome = true) := by
    intro m
    unfold _find_template_url
    rcases hms : cleanedGlobMatches fs tdirs path with _ | ⟨m0, _ | ⟨m1, rest⟩⟩
    · simp
    · dsimp only
      rw [get_template_truthy]
      by_cases hc : strLower m0 = "/" ++ strLower path
          ∧ (_get_template ex (dropSlashes m0)).isSome = true
      · rcases hc with ⟨hc1, hc2⟩
        simp only [hc1, hc2, beq_self_eq_true, Bool.and_self, if_pos]
        constructor
        · rintro h
          injection h with h
          subst h
          exact ⟨rfl, hc1, hc2⟩
        · rintro ⟨h1, _, _⟩
          injection h1 with h1
          subst h1
          rfl
      · have hcond : (strLower m0 == "/" ++ strLower path
            && (_get_template ex (dropSlashes m0)).isSome) = false := by
          rcases Decidable.not_and_iff_or_not.mp hc with h | h
          · have : (strLower m0 == "/" ++ strLower path) = false :=
              beq_eq_false_iff_ne.mpr h
            simp [this]
          · have : (_get_template ex (dropSlashes m0)).isSome = false := by
              simpa using h
            simp [this]
        rw [hcond]
        simp only [if_false, Bool.false_eq_true]
        constructor
        · rintro h; cases h
        · rintro ⟨h1, h2, h3⟩
          injection h1 with h1
          subst h1
          exact absurd ⟨h2, h3⟩ hc
    · constructor
      · rintro h; cases h
      · rintro ⟨h1, _, _⟩; cases h1
  refine ⟨hchar, ?_⟩
  intro m h
  have h1 := ((hchar m).mp h).1
  have hmem : m ∈ cleanedGlobMatches fs tdirs path := by
    rw [h1]; exact List.mem_singleton.mpr rfl
  exact mem_cleanedGlobMatches fs tdirs path m hmem

/-- Witness for C2: a lone case-insensitive match `Foo.html` for the
request `foo` yields the canonical-casing redirect target `/Foo`. -/
theorem find_template_url_characterization_witness :
    _find_template_url fsW2 tdirsW2 exW2 "foo" = some "/Foo" :=
  ((find_template_url_characterization fsW2 tdirsW2 exW2 "foo").1 "/Foo").mpr
    ⟨by decide, by decide, by decide⟩

/-- C3 counterexample: with `page.md` the single case-insensitive
candidate for the request `Page`, and its frontmatter lacking
`wrapper_template`, the engine nevertheless answers with a redirect to
`/page`, not with `Http404`: the re-resolution guard in
`_find_template_url` checks only that `_get_template` finds a file. -/
theorem case_fallback_invalid_markdown_counterexample :
    cleanedGlobMatches fsC3 tdirsC3 "Page" = ["/page"]
    ∧ _get_template exC3 "page" = some "page.md"
    ∧ strTrail ".md" "page.md" = true
    ∧ contentsC3 "page.md" = some "bodytext"
    ∧ (fmDefault "bodytext").wrapper_template = none
    ∧ render_to_response exC3 fsC3 tdirsC3 contentsC3 fmDefault mdId "Page" []
        = .ok (.redirect "/page")
    ∧ render_to_response exC3 fsC3 tdirsC3 contentsC3 fmDefault mdId "Page" []
        ≠ .ok .notFound :=
  ⟨by decide, by decide, by decide, by decide, rfl, by decide, by decide⟩

/-- C3 (amended): when the exact candidates all fail and the
case-insensitive fallback finds exactly one candidate whose lowercased
form equals the lowercased requested path and whose case-exact path
resolves through `_get_template` to an existing file, the outcome is a
redirect to that candidate — even when the resolved file is a Markdown
document whose frontmatter lacks `wrapper_template`: the guard checks
existence only, not renderability (the redirected request then yields
`Http404` on its own). -/
theorem case_fallback_redirect_existence_only
    (ex : String → Bool) (fs tdirs : List String)
    (contents : String → Option String) (fm : String → FMDoc)
    (md2html : String → String) (rp : String) (caller : Ctx) (m t : String)
    (h0 : _get_template ex (dropSlashes rp) = none)
    (h1 : cleanedGlobMatches fs tdirs (dropSlashes rp) = [m])
    (h2 : strLower m = "/" ++ strLower (dropSlashes rp))
    (h3 : _get_template ex (dropSlashes m) = some t)
    (h4 : strTrail ".md" t = true)
    (h5 : ∀ raw, contents t = some raw → (fm raw).wrapper_template = none) :
    render_to_response ex fs tdirs contents fm md2html rp caller
      = .ok (.redirect m) := by
  have hurl : _find_template_url fs tdirs ex (dropSlashes rp) = some m := by
    unfold _find_template_url
    rw [h1]
    dsimp only
    rw [get_template_truthy, h3]
    simp [h2]
  simp [render_to_response, h0, hurl]

/-- Witness for the amended C3: the counterexample scenario, through the
amended theorem. -/
theorem case_fallback_redirect_existence_only_witness :
    render_to_response exC3 fsC3 tdirsC3 contentsC3 fmDefault mdId "/Page" []
      = .ok (.redirect "/page") :=
  case_fallback_redirect_existence_only exC3 fsC3 tdirsC3 contentsC3 fmDefault mdId
    "/Page" [] "/page" "page.md" (by decide) (by decide) (by decide) (by decide)
    (by decide) (fun _ _ => rfl)

/-- C4: a matched Markdown document whose frontmatter has no
`wrapper_template` key makes `_parse_markdown_file` return `None` (the
Invalid signal) regardless of body and other metadata, and
`render_to_response` maps that to `Http404` (NotFound) instead of
rendering or crashing. -/
theorem markdown_without_wrapper_not_found
    (ex : String → Bool) (fs tdirs : List String)
    (contents : String → Option String) (fm : String → FMDoc)
    (md2html : String → String) (rp t raw : String) (caller : Ctx)
    (h1 : _get_template ex (dropSlashes rp) = some t)
    (h2 : strTrail ".md" t = true)
    (h3 : contents t = some raw)
    (h4 : (fm raw).wrapper_template = none) :
    _parse_markdown_file contents fm md2html t = .ok .invalid
    ∧ render_to_response ex fs tdirs contents fm md2html rp caller
        = .ok .notFound := by
  have hp : _parse_markdown_file contents fm md2html t = .ok .invalid := by
    unfold _parse_markdown_file
    rw [h3]
    dsimp only
    rw [h4]
  exact ⟨hp, by simp [render_to_response, h1, h2, hp]⟩

/-- Witness for C4: a Markdown file with empty metadata yields a 404. -/
theorem markdown_without_wrapper_not_found_witness :
    render_to_response exW4 [] [] contentsW4 fmDefault mdId "/a" []
      = .ok .notFound :=
  (markdown_without_wrapper_not_found exW4 [] [] contentsW4 fmDefault mdId "/a"
    "a.md" "hello" [] (by decide) (by decide) (by decide) rfl).2

/-- C10: a matched Markdown document whose frontmatter binds
`wrapper_template` to a falsy value (empty string, null, or false) is
treated exactly as if the key were absent — `_parse_markdown_file`
returns `None` and the outcome is `Http404` — because the guard tests the
truthiness of the value, not the presence of the key. -/
theorem markdown_falsy_wrapper_not_found
    (ex : String → Bool) (fs tdirs : List String)
    (contents : String → Option String) (fm : String → FMDoc)
    (md2html : String → String) (rp t raw : String) (v : YVal) (caller : Ctx)
    (h1 : _get_template ex (dropSlashes rp) = some t)
    (h2 : strTrail ".md" t = true)
    (h3 : contents t = some raw)
    (h4 : (fm raw).wrapper_template = some v)
    (h5 : v.truthy = false) :
    _parse_markdown_file contents fm md2html t = .ok .invalid
    ∧ render_to_response ex fs tdirs contents fm md2html rp caller
        = .ok .notFound := by
  have hp : _parse_markdown_file contents fm md2html t = .ok .invalid := by
    unfold _parse_markdown_file
    rw [h3]
    dsimp only
    rw [h4]
    dsimp only
    rw [h5]
    rfl
  exact ⟨hp, by simp [render_to_response, h1, h2, hp]⟩

/-- Witness for C10: `wrapper_template` bound to the empty string yields a
404 just like an absent key. -/
theorem markdown_falsy_wrapper_not_found_witness :
    (fmW10 "hb").wrapper_template = some (.str "")
    ∧ render_to_response exW10 [] [] contentsW10 fmW10 mdId "/b" []
        = .ok .notFound :=
  ⟨rfl, (markdown_falsy_wrapper_not_found exW10 [] [] contentsW10 fmW10 mdId "/b"
    "b.md" "hb" (.str "") [] (by decide) (by decide) (by decide) rfl rfl).2⟩

/-- C5: for a rendered Markdown document the final context is the
caller-supplied context updated with the composed context, which is built
from the frontmatter `context` by writing `html_content` (the converted
body) and then every include key, later writes winning: composed keys
override caller keys, untouched caller keys survive, every
frontmatter-declared or include key or `html_content` is present in the
composed context, a frontmatter key not overlaid by `html_content` or an
include keeps its frontmatter value, and `html_content` holds the
converted body unless an include overwrites it. -/
theorem markdown_context_precedence
    (ex : String → Bool) (fs tdirs : List String)
    (contents : String → Option String) (fm : String → FMDoc)
    (md2html : String → String) (rp t raw tpl : String) (mdctx caller : Ctx)
    (h1 : _get_template ex (dropSlashes rp) = some t)
    (h2 : strTrail ".md" t = true)
    (h3 : contents t = some raw)
    (h4 : _parse_markdown_file contents fm md2html t = .ok (.page tpl mdctx))
    (h5 : ((fm raw).context.map Prod.fst).Nodup) :
    render_to_response ex fs tdirs contents fm md2html rp caller
      = .ok (.render tpl (dupdate caller mdctx))
    ∧ (∀ k v, dget mdctx k = some v → dget (dupdate caller mdctx) k = some v)
    ∧ (∀ k, dget mdctx k = none → dget (dupdate caller mdctx) k = dget caller k)
    ∧ (∀ k, (k ∈ (fm raw).context.map Prod.fst ∨ k = "html_content"
          ∨ k ∈ (fm raw).markdown_includes.map Prod.fst) →
        (dget mdctx k).isSome = true)
    ∧ (∀ k, k ∉ (fm raw).markdown_includes.map Prod.fst → k ≠ "html_content" →
        dget mdctx k = dget (fm raw).context k)
    ∧ ("html_content" ∉ (fm raw).markdown_includes.map Prod.fst →
        dget mdctx "html_content" = some (md2html (fm raw).content)) := by
  obtain ⟨raw', w, hc, hw, hwne, htpl, hadd⟩ :=
    parse_markdown_file_page_inv contents fm md2html t tpl mdctx h4
  have hraw : raw' = raw := by
    rw [h3] at hc
    exact (Option.some.inj hc).symm
  rw [hraw] at hw hadd
  have hnd0 : ((dset (fm raw).context "html_content"
      (md2html (fm raw).content)).map Prod.fst).Nodup :=
    dset_nodup _ _ _ h5
  have hndmd : (mdctx.map Prod.fst).Nodup :=
    addIncludes_nodup contents md2html t _ _ mdctx hnd0 hadd
  refine ⟨by simp [render_to_response, h1, h2, h4], ?_, ?_, ?_, ?_, ?_⟩
  · intro k v hv
    exact dget_dupdate_some caller mdctx k v hndmd hv
  · intro k hv
    exact dget_dupdate_none caller mdctx k hv
  · intro k hk
    rcases hk with hk | hk | hk
    · exact addIncludes_isSome_mono contents md2html t _ _ mdctx k hadd
        (dget_dset_isSome _ _ _ _ (Or.inl ((dget_isSome_iff _ _).mpr hk)))
    · subst hk
      exact addIncludes_isSome_mono contents md2html t _ _ mdctx _ hadd
        (dget_dset_isSome _ _ _ _ (Or.inr rfl))
    · exact addIncludes_mem_isSome contents md2html t _ _ mdctx k hadd hk
  · intro k hk1 hk2
    rw [addIncludes_untouched contents md2html t _ _ mdctx k hadd hk1,
      dget_dset_other _ _ _ _ (Ne.symm hk2)]
  · intro hk
    rw [addIncludes_untouched contents md2html t _ _ mdctx _ hadd hk,
      dget_dset_self]

/-- Witness for C5: a caller key `t` colliding with a frontmatter key is
overridden, the untouched caller key `only` survives, and `html_content`
and the include key are appended. -/
theorem markdown_context_precedence_witness :
    render_to_response exW5 [] [] contentsW5 fmW5 mdW5 "/md-templates/a-file"
      callerW5 = .ok (.render "wrapper.html" (dupdate callerW5 mdctxW5))
    ∧ dupdate callerW5 mdctxW5
      = [("t", "f1"), ("only", "c2"), ("title", "X"),
         ("html_content", "<p>a md file"), ("nav", "<p>NAVRAW")] :=
  ⟨(markdown_context_precedence exW5 [] [] contentsW5 fmW5 mdW5 "/md-templates/a-file"
      "md-templates/a-file.md" "TOP" "wrapper.html" mdctxW5 callerW5
      (by decide) (by decide) (by decide) (by decide) (by decide)).1,
   by decide⟩

/-- C6: the wrapper-template reference of a composed document is resolved
by `_relative_template_path` anchored at the document path — a reference
beginning with a slash has its leading slashes stripped for a
root-relative loader lookup, any other reference is joined to the
directory containing the document and normalized — and every
`markdown_includes` entry is read from the path produced by the same
rule. -/
theorem template_reference_resolution
    (contents : String → Option String) (fm : String → FMDoc)
    (md2html : String → String) (filepath raw tpl w : String) (mdctx : Ctx)
    (h3 : contents filepath = some raw)
    (h4 : (fm raw).wrapper_template = some (.str w))
    (h7 : _parse_markdown_file contents fm md2html filepath = .ok (.page tpl mdctx)) :
    tpl = _relative_template_path w filepath
    ∧ (strLead "/" w = true → tpl = dropSlashes w)
    ∧ (strLead "/" w = false → tpl = relpath (joinPath (dirname filepath) w))
    ∧ (∀ k p, (k, p) ∈ (fm raw).markdown_includes →
        (contents (if strLead "/" p then dropSlashes p
          else relpath (joinPath (dirname filepath) p))).isSome = true) := by
  obtain ⟨raw', w', hc, hw, hwne, htpl, hadd⟩ :=
    parse_markdown_file_page_inv contents fm md2html filepath tpl mdctx h7
  have hraw : raw' = raw := by
    rw [h3] at hc
    exact (Option.some.inj hc).symm
  rw [hraw] at hw hadd
  have hww : w' = w := by
    rw [h4] at hw
    exact (YVal.str.inj (Option.some.inj hw)).symm
  rw [hww] at htpl
  refine ⟨htpl, ?_, ?_, ?_⟩
  · intro hs
    rw [htpl]
    simp [_relative_template_path, hs]
  · intro hs
    rw [htpl]
    simp [_relative_template_path, hs]
  · intro k p hm
    have := addIncludes_contents_isSome contents md2html filepath _ _ mdctx hadd
      (k, p) hm
    simpa [_relative_template_path] using this

/-- Witness for C6: a relative wrapper reference climbing out of the
document directory is normalized against it, and an absolute include
reference is read root-relatively with its slash stripped. -/
theorem template_reference_resolution_witness :
    ("wrap.html" : String) = relpath (joinPath (dirname "md/a.md") "../wrap.html")
    ∧ (contentsW6 (if strLead "/" "/inc.md" then dropSlashes "/inc.md"
        else relpath (joinPath (dirname "md/a.md") "/inc.md"))).isSome = true :=
  ⟨(template_reference_resolution contentsW6 fmW6 mdId "md/a.md" "T6" "wrap.html"
      "../wrap.html" [("html_content", "B6"), ("abs", "I6")]
      (by decide) (by decide) (by decide)).2.2.1 (by decide),
   (template_reference_resolution contentsW6 fmW6 mdId "md/a.md" "T6" "wrap.html"
      "../wrap.html" [("html_content", "B6"), ("abs", "I6")]
      (by decide) (by decide) (by decide)).2.2.2 "abs" "/inc.md" (by decide)⟩

/-- C7: every declared include is loaded from its resolved path and its
raw loaded text is Markdown-converted directly and stored under the
declared key — the stored value is the conversion of the raw contents, so
no frontmatter split touches the include before conversion. -/
theorem include_raw_contents_conversion
    (contents : String → Option String) (fm : String → FMDoc)
    (md2html : String → String) (filepath raw tpl : String) (mdctx : Ctx)
    (h3 : contents filepath = some raw)
    (h6 : ((fm raw).markdown_includes.map Prod.fst).Nodup)
    (h7 : _parse_markdown_file contents fm md2html filepath = .ok (.page tpl mdctx)) :
    ∀ k p, (k, p) ∈ (fm raw).markdown_includes →
      ∃ rawInc, contents (_relative_template_path p filepath) = some rawInc
        ∧ dget mdctx k = some (md2html rawInc) := by
  obtain ⟨raw', w', hc, hw, hwne, htpl, hadd⟩ :=
    parse_markdown_file_page_inv contents fm md2html filepath tpl mdctx h7
  have hraw : raw' = raw := by
    rw [h3] at hc
    exact (Option.some.inj hc).symm
  rw [hraw] at hadd
  intro k p hm
  exact addIncludes_value contents md2html filepath _ _ mdctx k p h6 hadd hm

/-- Witness for C7: the include `_nav.md` has raw text `NAVFULL` while its
frontmatter body would be `STRIPPED`; the stored context value is the
conversion of the raw text. -/
theorem include_raw_contents_conversion_witness :
    (∃ rawInc, contentsW7 (_relative_template_path "_nav.md" "md7/a.md")
        = some rawInc
      ∧ dget [("html_content", "body7"), ("nav", "NAVFULL")] "nav"
        = some (mdId rawInc))
    ∧ dget [("html_content", "body7"), ("nav", "NAVFULL")] "nav" = some "NAVFULL"
    ∧ (fmW7 "NAVFULL").content = "STRIPPED" :=
  ⟨include_raw_contents_conversion contentsW7 fmW7 mdId "md7/a.md" "T7" "w.html"
      [("html_content", "body7"), ("nav", "NAVFULL")]
      (by decide) (by decide) (by decide) "nav" "_nav.md" (by decide),
   by decide, by decide⟩

/-- C8 counterexample: at this concrete input the missing include makes
the engine fail with the loader error `TemplateDoesNotExist` — the very
exception class the templating collaborator raises for a missing template
at render time (the source defines no separate IncludeNotFound error) —
so the failure is surfaced, but it is not distinct from the render-time
`TemplateNotFound`. -/
theorem include_missing_counterexample :
    contentsW8 (_relative_template_path "_nav.md" "md8/a.md") = none
    ∧ render_to_response exW8 [] [] contentsW8 fmW8 mdId "/md8/a" []
        = .error (.templateDoesNotExist "md8/_nav.md") :=
  ⟨by decide, by decide⟩

/-- C8 (amended): a `markdown_includes` entry whose resolved path the
loader cannot find makes composition fail by propagating the loader error
`TemplateDoesNotExist` for that path — surfaced at request level, the key
never silently omitted — but this is the same `TemplateDoesNotExist` the
templating collaborator raises for a missing template at render time, not
a distinct IncludeNotFound error. -/
theorem include_missing_propagates
    (ex : String → Bool) (fs tdirs : List String)
    (contents : String → Option String) (fm : String → FMDoc)
    (md2html : String → String) (rp t raw w k p : String)
    (pre post : List (String × String)) (caller : Ctx)
    (h1 : _get_template ex (dropSlashes rp) = some t)
    (h2 : strTrail ".md" t = true)
    (h3 : contents t = some raw)
    (h4 : (fm raw).wrapper_template = some (.str w))
    (h5 : w ≠ "")
    (h6 : (fm raw).markdown_includes = pre ++ (k, p) :: post)
    (h7 : ∀ kp, kp ∈ pre → (contents (_relative_template_path kp.2 t)).isSome = true)
    (h8 : contents (_relative_template_path p t) = none) :
    render_to_response ex fs tdirs contents fm md2html rp caller
      = .error (.templateDoesNotExist (_relative_template_path p t)) := by
  have hadd := addIncludes_missing contents md2html t
    (dset (fm raw).context "html_content" (md2html (fm raw).content))
    pre post k p h7 h8
  have hp : _parse_markdown_file contents fm md2html t
      = .error (.templateDoesNotExist (_relative_template_path p t)) := by
    rw [parse_markdown_file_page_fwd contents fm md2html t raw w h3 h4 h5, h6, hadd]
  simp [render_to_response, h1, h2, hp]

/-- Witness for the amended C8: the counterexample scenario, through the
amended theorem. -/
theorem include_missing_propagates_witness :
    render_to_response exW8 [] [] contentsW8 fmW8 mdId "/md8/a" []
      = .error (.templateDoesNotExist (_relative_template_path "_nav.md" "md8/a.md")) :=
  include_missing_propagates exW8 [] [] contentsW8 fmW8 mdId "/md8/a" "md8/a.md"
    "T8" "/w.html" "nav" "_nav.md" [] [] [] (by decide) (by decide) (by decide)
    (by decide) (by decide) (by decide)
    (fun kp hm => absurd hm (List.not_mem_nil kp)) (by decide)

/-- C9: the Markdown converter configuration fixes the block rule order —
newline (blank line), block_code (indented code), fences (fenced code),
lheading (setext headings), hrule, table and nptable (piped and non-piped
tables), block_quote, list_block (nested lists), block_html (raw
block-level HTML passthrough), then text (plain paragraphs) — and enables
both inline HTML and block HTML passthrough. -/
theorem markdown_block_rule_order :
    parse_markdown.block.list_rules
      = ["newline", "block_code", "fences", "lheading", "hrule", "table",
         "nptable", "block_quote", "list_block", "block_html", "text"]
    ∧ parse_markdown.parse_block_html = true
    ∧ parse_markdown.parse_inline_html = true :=
  ⟨rfl, rfl, rfl⟩

end DjangoViews
